import Mathlib

/-!
Shallow embedding of `src/process_mastcam_pds.py` (MSL Mastcam PDS4 EDR
processor) and verification of its specification claims.

Modelling conventions:
* Raw binary files are `List Nat` of byte values; 2D numpy arrays are
  `List (List Nat)` (row-major rows).
* 3-channel images are a structure of three flat channel sample lists in
  OpenCV memory order (b, g, r); float32 arithmetic is modelled exactly
  over `ℚ`.
* Python exceptions are an inductive error type; fallible functions
  return `Except`.
-/

/-- Python exceptions raised by the script, carrying the data the source
puts into the exception message. `shortRead` is the `IOError` raised by
`read_raw_img` with expected byte count, actual byte count, and offset
(the spec's `ShortReadError`). -/
inductive PyErr where
  | valueError (msg : String)
  | typeError
  | shortRead (expected actual off : Nat)
  deriving Repr, DecidableEq

/-- Result of Python `int(...)` applied to `str` or `None`:
`int(None)` raises `TypeError`; a string that is not an (optionally
signed) decimal integer raises `ValueError`; otherwise the parsed
integer. Models CPython `int()` on the strings that occur in labels. -/
def pyInt (x : Option String) : Except PyErr Int :=
  match x with
  | none => .error .typeError
  | some s =>
    let t := ((s.data.dropWhile (· = ' ')).reverse.dropWhile (· = ' ')).reverse
    let (sign, digits) :=
      match t with
      | '-' :: rest => ((-1 : Int), rest)
      | '+' :: rest => ((1 : Int), rest)
      | _ => ((1 : Int), t)
    if digits ≠ [] ∧ digits.all (·.isDigit) then
      .ok (sign * (digits.foldl (fun a c => a * 10 + (c.toNat - 48)) 0 : Nat))
    else
      .error (.valueError ("invalid literal for int: " ++ s))

/-- Python `a or b` on optional strings: `None` and `""` are falsy. -/
def pyOr (a b : Option String) : Option String :=
  match a with
  | some s => if s = "" then b else some s
  | none => b

/-- A PDS4 label as seen through the `ElementTree` lookups the source
performs: whether an `Array_2D_Image` element is found (after the
namespaced-then-bare fallback at lines 60–62), the `findtext` results of
the namespaced and bare lookups for each field, and the `file_name`
text. `none` models `findtext` returning `None`. -/
structure Label where
  file_name : Option String
  has_array : Bool
  offset_ns : Option String
  offset_bare : Option String
  lines_ns : Option String
  lines_bare : Option String
  samples_ns : Option String
  samples_bare : Option String
  deriving Repr, DecidableEq

/-- The metadata dict built by `parse_pds4_label`. -/
structure ImageInfo where
  file_name : Option String
  off : Int
  lines : Int
  samples : Int
  bits : Nat
  bayer : String
  lut : Option Unit
  deriving Repr, DecidableEq

/-- Model of `parse_pds4_label` (src lines 40–95): raises `ValueError` when no
`Array_2D_Image` element is found; then converts
`offset`/`Line`-elements/`Sample`-elements, each via the namespaced
lookup `or` the bare lookup, with Python `int()`; fills in the
hardcoded `bits=8`, `bayer="grbg"`, `lut=None`. -/
def parse_pds4_label (lbl : Label) : Except PyErr ImageInfo :=
  if ¬ lbl.has_array then
    .error (.valueError "No Array_2D_Image element found")
  else
    match pyInt (pyOr lbl.offset_ns lbl.offset_bare) with
    | .error e => .error e
    | .ok off =>
      match pyInt (pyOr lbl.lines_ns lbl.lines_bare) with
      | .error e => .error e
      | .ok lines =>
        match pyInt (pyOr lbl.samples_ns lbl.samples_bare) with
        | .error e => .error e
        | .ok samples =>
          .ok { file_name := lbl.file_name, off := off, lines := lines,
                samples := samples, bits := 8, bayer := "grbg", lut := none }

/-- Row-major numpy `reshape((rows, cols))` of a flat buffer. -/
def npReshape (rows cols : Nat) (l : List α) : List (List α) :=
  (List.range rows).map (fun i => (l.drop (i * cols)).take cols)

/-- Model of `read_raw_img` (src lines 102–116): seek to `offset`, read
`samples * lines` bytes (modelled as drop/take on the byte list), raise
`IOError` citing expected, actual and offset when short, else reshape
to `(lines, samples)`. -/
def read_raw_img (file : List Nat) (off samples lines : Nat) :
    Except PyErr (List (List Nat)) :=
  let expected_bytes := samples * lines
  let raw := (file.drop off).take expected_bytes
  if raw.length < expected_bytes then
    .error (.shortRead expected_bytes raw.length off)
  else
    .ok (npReshape lines samples raw)

/-- The OpenCV Bayer→BGR VNG conversion constants used by `debayer`
(src lines 152–157): four distinct library selectors. -/
inductive CVBayerCode where
  | bayerBG
  | bayerGB
  | bayerGR
  | bayerRG
  deriving Repr, DecidableEq

/-- The `patterns` dict of `debayer` (src lines 152–157): real-world
top-left-origin token → OpenCV selector, correcting OpenCV's
second-row/second-column naming convention. -/
def patterns : List (String × CVBayerCode) :=
  [("rggb", .bayerBG),
   ("grbg", .bayerGB),
   ("gbrg", .bayerGR),
   ("bggr", .bayerRG)]

/-- Python `str.lower()` on the ASCII pattern tokens: lower-case each
character. -/
def pyLower (s : String) : String := ⟨s.data.map Char.toLower⟩

/-- Model of `patterns.get(pattern.lower(), cv2.COLOR_BayerGB2BGR_VNG)`
(src line 158): dict lookup on the lowercased token with the Mastcam
GRBG-equivalent selector as default. -/
def debayerCode (pattern : String) : CVBayerCode :=
  (patterns.lookup (pyLower pattern)).getD .bayerGB

/-- A 3-channel image: flat per-channel sample lists in OpenCV BGR
channel order (channel 0 = blue, 1 = green, 2 = red). Samples are `ℚ`
so the float32 working copies of the colour stages are modelled
exactly. -/
structure Image where
  b : List ℚ
  g : List ℚ
  r : List ℚ
  deriving Repr, DecidableEq

/-- Modelled from the spec: `cv2.cvtColor` Bayer demosaicing (opaque
library code, not part of src/). The spec fixes only the shape —
"Demosaic output has the same R × C spatial shape as its input RawFrame
and exactly 3 channels" — and leaves values to VNG interpolation; the
model replicates the raw samples into each of the three channels, which
has the specified shape. -/
def cvtColor (bayer_img : List (List Nat)) (_code : CVBayerCode) : Image :=
  { b := bayer_img.flatten.map (fun v : ℕ => (v : ℚ))
    g := bayer_img.flatten.map (fun v : ℕ => (v : ℚ))
    r := bayer_img.flatten.map (fun v : ℕ => (v : ℚ)) }

/-- Model of `debayer` (src lines 123–159): select the OpenCV code from the
token (falling back to the GRBG-equivalent default) and convert. The
second component is the list of console messages the function prints:
the source body prints none. -/
def debayer (bayer_img : List (List Nat)) (pattern : String) :
    Image × List String :=
  (cvtColor bayer_img (debayerCode pattern), [])

/-- Model of `np.clip(x, 0, 255).astype(np.uint8)` on one sample: clamp to
[0, 255] then truncate to an integer (C-style float→uint8 cast; the
clipped value is non-negative, so truncation is the floor). -/
def toU8 (x : ℚ) : ℚ := (⌊max 0 (min 255 x)⌋ : ℚ)

/-- Model of `np.mean` of a channel: sum over element count (the spatial
arrangement is irrelevant to the mean). -/
def npMean (l : List ℚ) : ℚ := l.sum / l.length

/-- The state of `white_balance`'s working float copy after the two
in-place channel rescalings (src lines 164–172), before `np.clip` and
the uint8 cast: red is scaled by `mean_g / mean_r` when `mean_r > 0`,
blue by `mean_g / mean_b` when `mean_b > 0`, green untouched. -/
def white_balance_scaled (img : Image) : Image :=
  let mean_r := npMean img.r
  let mean_g := npMean img.g
  let mean_b := npMean img.b
  { b := if mean_b > 0 then img.b.map (fun x => x * (mean_g / mean_b)) else img.b
    g := img.g
    r := if mean_r > 0 then img.r.map (fun x => x * (mean_g / mean_r)) else img.r }

/-- Model of `white_balance` (src lines 162–174): gray-world rescaling followed
by `np.clip(img, 0, 255).astype(np.uint8)` on every channel. -/
def white_balance (img : Image) : Image :=
  let s := white_balance_scaled img
  { b := s.b.map toU8, g := s.g.map toU8, r := s.r.map toU8 }

/-- The state of `color_correct`'s working float copy after the three
in-place multiplications (src lines 180–182), before `np.clip` and the
uint8 cast: red ×1.10, green ×1.00, blue ×0.85. -/
def color_correct_scaled (img : Image) : Image :=
  { b := img.b.map (fun x => x * (85 / 100))
    g := img.g.map (fun x => x * 1)
    r := img.r.map (fun x => x * (110 / 100)) }

/-- Model of `color_correct` (src lines 177–183): fixed per-channel scaling
followed by `np.clip(img, 0, 255).astype(np.uint8)`. -/
def color_correct (img : Image) : Image :=
  let s := color_correct_scaled img
  { b := s.b.map toU8, g := s.g.map toU8, r := s.r.map toU8 }

/-- Model of `np.percentile(l, q)` with numpy's default linear interpolation:
on the sorted pooled samples `s` of length `n`, the value at fractional
index `q/100 * (n-1)`, linearly interpolated between the neighbouring
elements. -/
def npPercentile (l : List ℚ) (q : ℚ) : ℚ :=
  let s := l.insertionSort (· ≤ ·)
  let pos := q / 100 * ((l.length : ℚ) - 1)
  let i := (⌊pos⌋).toNat
  let lo := s.getD i 0
  let hi := s.getD (i + 1) lo
  lo + (pos - (⌊pos⌋ : ℚ)) * (hi - lo)

/-- All samples of an image pooled across channels, as flattened by
`np.percentile(img, ...)` (order is irrelevant to a percentile). -/
def Image.pool (img : Image) : List ℚ := img.b ++ img.g ++ img.r

/-- Model of `stretch_contrast` (src lines 186–192): 0.5th/99.5th percentile of
the pooled samples; identity when they coincide, otherwise
`np.clip((img - imin) * 255 / (imax - imin), 0, 255).astype(np.uint8)`
on every sample. -/
def stretch_contrast (img : Image) : Image :=
  let imin := npPercentile img.pool (1 / 2)
  let imax := npPercentile img.pool (199 / 2)
  if imax - imin = 0 then img
  else
    let f := fun x => toU8 ((x - imin) * 255 / (imax - imin))
    { b := img.b.map f, g := img.g.map f, r := img.r.map f }

/-- The per-sample remap applied by `stretch_contrast` in its
non-degenerate branch: clip and 8-bit cast of
`(x - imin) * 255 / (imax - imin)`. -/
def stretchMap (img : Image) (x : ℚ) : ℚ :=
  toU8 ((x - npPercentile img.pool (1 / 2)) * 255
    / (npPercentile img.pool (199 / 2) - npPercentile img.pool (1 / 2)))

/-- The filesystem visible to the processor: the raw binary files that
exist, by path. -/
structure FS where
  files : List (String × List Nat)

/-- Model of `os.path.isfile`. -/
def FS.isFile (fs : FS) (p : String) : Bool := (fs.files.lookup p).isSome

/-- The byte contents of a file (defaulting to empty for paths the
model never reads, since reads are guarded by `isFile`). -/
def FS.readBytes (fs : FS) (p : String) : List Nat :=
  (fs.files.lookup p).getD []

/-- Model of `os.path.join` for the relative path components this program forms
(no absolute second component, no trailing separator on the first). -/
def osPathJoin (a b : String) : String :=
  if a = "" then b else a ++ "/" ++ b

/-- Model of `os.path.splitext(s)[0]`: strip the suffix from the last dot on,
except a dot at the very start of the name (Python keeps a leading-dot
name whole). -/
def splitextStem (s : String) : String :=
  match s.revPosOf '.' with
  | some p => if p.byteIdx = 0 then s else s.extract 0 p
  | none => s

/-- Observable outcome of one `process_pds_image` call: the returned
value (or the Python exception that escapes it), the output files
written, and the console messages printed (progress lines condensed to
one entry each). -/
structure ProcOutcome where
  ret : Except PyErr (Option String)
  written : List (String × Image)
  printed : List String
  deriving Repr

/-- Model of `process_pds_image` (src lines 199–246): parse the label, locate
the IMG file next to it (`xml_dir` is `os.path.dirname(xml_path)`),
return `None` with a warning when it is missing, else read, demosaic
with `bayer_override or info["bayer"]`, run the three colour stages,
and write `<stem>_RGB.png` under `output_dir` or `<dir>/output_png`,
returning the saved path. Parse errors, a `None` file name (`TypeError`
from `os.path.join`) and short reads escape as exceptions. The parsed
geometry is used as a numpy shape; the model covers the spec's
`ImageMetadata` domain of non-negative offset and dimensions
(`Int.toNat` below), negative label values being outside it. -/
def process_pds_image (fs : FS) (xml_dir : String) (lbl : Label)
    (output_dir bayer_override : Option String) : ProcOutcome :=
  match parse_pds4_label lbl with
  | .error e => { ret := .error e, written := [], printed := [] }
  | .ok info =>
    let parsedMsg := "XML parsed: offset=" ++ toString info.off
    match info.file_name with
    | none => { ret := .error .typeError, written := [], printed := [parsedMsg] }
    | some fn =>
      let img_path := osPathJoin xml_dir fn
      if ¬ fs.isFile img_path then
        { ret := .ok none, written := [],
          printed := [parsedMsg, "IMG file not found: " ++ img_path] }
      else
        let pattern :=
          match bayer_override with
          | some s => if s = "" then info.bayer else s
          | none => info.bayer
        let procMsg := "Processing: " ++ fn ++ " Bayer: " ++ pattern
        match read_raw_img (fs.readBytes img_path) info.off.toNat
            info.samples.toNat info.lines.toNat with
        | .error e =>
          { ret := .error e, written := [], printed := [parsedMsg, procMsg] }
        | .ok bayer_img =>
          let rgb0 := (debayer bayer_img pattern).1
          let rgb := stretch_contrast (color_correct (white_balance rgb0))
          let dest_dir :=
            match output_dir with
            | some d => d
            | none => osPathJoin (if xml_dir = "" then "." else xml_dir) "output_png"
          let out_path := osPathJoin dest_dir (splitextStem fn ++ "_RGB.png")
          { ret := .ok (some out_path), written := [(out_path, rgb)],
            printed := [parsedMsg, procMsg, "Saved: " ++ out_path] }

/-- One iteration of the batch loop of `main` (src lines 327–342): the
label is processed inside `try/except`; a truthy result bumps the
success tally, `None` or an exception bumps the failure tally, and the
loop always moves on to the next label. -/
def batchStep (fs : FS) (output_dir bayer_override : Option String)
    (acc : Nat × Nat) (item : String × Label) : Nat × Nat :=
  match (process_pds_image fs item.1 item.2 output_dir bayer_override).ret with
  | .ok (some _) => (acc.1 + 1, acc.2)
  | .ok none => (acc.1, acc.2 + 1)
  | .error _ => (acc.1, acc.2 + 1)

/-- The batch loop of `main` over all discovered labels (paired with
their directories), starting from zero tallies. -/
def processBatch (fs : FS) (labels : List (String × Label))
    (output_dir bayer_override : Option String) : Nat × Nat :=
  labels.foldl (batchStep fs output_dir bayer_override) (0, 0)

/-! ## Helper lemmas -/

theorem npReshape_succ (r c : Nat) (l : List α) :
    npReshape (r + 1) c l = l.take c :: npReshape r c (l.drop c) := by
  unfold npReshape
  rw [List.range_succ_eq_map, List.map_cons]
  refine congrArg₂ _ (by simp) ?_
  rw [List.map_map]
  refine List.map_congr_left (fun i _ => ?_)
  simp [Function.comp, List.drop_drop, Nat.succ_mul, Nat.add_comm]

theorem npReshape_length (r c : Nat) (l : List α) :
    (npReshape r c l).length = r := by
  simp [npReshape]

theorem npReshape_row_length (r c : Nat) (l : List α) (h : r * c ≤ l.length) :
    ∀ row ∈ npReshape r c l, row.length = c := by
  intro row hrow
  simp only [npReshape, List.mem_map, List.mem_range] at hrow
  obtain ⟨i, hi, rfl⟩ := hrow
  rw [List.length_take, List.length_drop]
  have h1 : (i + 1) * c ≤ r * c := Nat.mul_le_mul_right c (Nat.succ_le_of_lt hi)
  rw [Nat.succ_mul] at h1
  omega

theorem npReshape_flatten (r c : Nat) (l : List α) (h : l.length = r * c) :
    (npReshape r c l).flatten = l := by
  induction r generalizing l with
  | zero =>
    rw [Nat.zero_mul] at h
    simp [npReshape, List.eq_nil_of_length_eq_zero h]
  | succ n ih =>
    rw [npReshape_succ, List.flatten_cons,
      ih (l.drop c) (by rw [List.length_drop, h, Nat.succ_mul]; omega)]
    exact List.take_append_drop c l

/-! ## Claim theorems -/

/-- C1: the demosaic pattern mapping corrects the one-row/one-column
naming-convention shift — RGGB selects BayerBG, GRBG selects BayerGB,
GBRG selects BayerGR, BGGR selects BayerRG — and the four selectors are
pairwise distinct, so no two canonical tokens select the same
routine. -/
theorem debayerCode_canonical_injective :
    debayerCode "RGGB" = CVBayerCode.bayerBG ∧
    debayerCode "GRBG" = CVBayerCode.bayerGB ∧
    debayerCode "GBRG" = CVBayerCode.bayerGR ∧
    debayerCode "BGGR" = CVBayerCode.bayerRG ∧
    List.Nodup [CVBayerCode.bayerBG, CVBayerCode.bayerGB,
                CVBayerCode.bayerGR, CVBayerCode.bayerRG] := by
  refine ⟨rfl, rfl, rfl, rfl, ?_⟩
  decide

/-- C2: with positive geometry, a file holding at least
`offset + rows*cols` bytes from the offset yields exactly the row-major
`rows × cols` grid of the bytes read there; a shorter file yields a
short-read error reporting the expected count, the actual count and
the offset. -/
theorem read_raw_img_spec (file : List Nat) (off samples lines : Nat)
    (hs : 0 < samples) (hl : 0 < lines) :
    (off + lines * samples ≤ file.length →
      ∃ g, read_raw_img file off samples lines = .ok g ∧
        g.length = lines ∧ (∀ row ∈ g, row.length = samples) ∧
        g.flatten = (file.drop off).take (lines * samples)) ∧
    (file.length < off + lines * samples →
      read_raw_img file off samples lines =
        .error (.shortRead (lines * samples) (file.length - off) off)) := by
  have hrawlen : ((file.drop off).take (samples * lines)).length
      = min (samples * lines) (file.length - off) := by
    rw [List.length_take, List.length_drop]
  constructor
  · intro hle
    have hlen : ((file.drop off).take (samples * lines)).length = samples * lines := by
      rw [hrawlen, Nat.mul_comm samples lines]; omega
    refine ⟨npReshape lines samples ((file.drop off).take (samples * lines)), ?_, ?_, ?_, ?_⟩
    · unfold read_raw_img
      rw [if_neg (by omega)]
    · exact npReshape_length _ _ _
    · exact npReshape_row_length _ _ _ (by rw [hlen, Nat.mul_comm])
    · rw [npReshape_flatten _ _ _ (by rw [hlen, Nat.mul_comm]), Nat.mul_comm]
  · intro hlt
    have hc : samples * lines = lines * samples := Nat.mul_comm _ _
    have hpos : 0 < samples * lines := Nat.mul_pos hs hl
    unfold read_raw_img
    rw [if_pos (by omega)]
    rw [hrawlen, Nat.mul_comm samples lines,
      Nat.min_eq_right (show file.length - off ≤ lines * samples by omega)]

/-- Witness for C2 at a concrete file, offset and geometry, on both the
sufficient-bytes and the short-file side. -/
theorem read_raw_img_spec_witness :
    (∃ g, read_raw_img [9, 9, 1, 2, 3, 4, 5, 6] 2 3 2 = .ok g ∧
      g.length = 2 ∧ (∀ row ∈ g, row.length = 3) ∧
      g.flatten = (([9, 9, 1, 2, 3, 4, 5, 6] : List Nat).drop 2).take (2 * 3)) ∧
    read_raw_img [9, 9, 1, 2, 3] 2 3 2 = .error (.shortRead (2 * 3) (5 - 2) 2) := by
  constructor
  · exact (read_raw_img_spec [9, 9, 1, 2, 3, 4, 5, 6] 2 3 2 (by decide) (by decide)).1
      (by decide)
  · exact (read_raw_img_spec [9, 9, 1, 2, 3] 2 3 2 (by decide) (by decide)).2 (by decide)

/-- C5: colour correction is per-channel linear scaling by the fixed
image-independent coefficients — red ×1.10, green ×1.00, blue ×0.85 —
followed by clamping to [0, 255]; on a single-pixel image the
pre-clamp output is exactly (R·1.10, G·1.00, B·0.85). -/
theorem color_correct_fixed_linear :
    (∀ img : Image,
      color_correct img =
        { b := (color_correct_scaled img).b.map toU8,
          g := (color_correct_scaled img).g.map toU8,
          r := (color_correct_scaled img).r.map toU8 } ∧
      (color_correct_scaled img).b = img.b.map (fun x => x * (85 / 100)) ∧
      (color_correct_scaled img).g = img.g.map (fun x => x * 1) ∧
      (color_correct_scaled img).r = img.r.map (fun x => x * (110 / 100))) ∧
    (∀ R G B : ℚ,
      color_correct_scaled { b := [B], g := [G], r := [R] } =
        { b := [B * (85 / 100)], g := [G * 1], r := [R * (110 / 100)] }) :=
  ⟨fun _ => ⟨rfl, rfl, rfl, rfl⟩, fun _ _ _ => rfl⟩

/-- C7 counterexample: on the non-canonical token "foo" the demosaic
stage falls back to the GRBG-equivalent selector, but the list of
messages it prints is empty — no warning is emitted to the caller,
refuting the claim's warning clause. -/
theorem debayer_unknown_token_prints_nothing :
    debayer [[0]] "foo" = (cvtColor [[0]] CVBayerCode.bayerGB, []) ∧
    (debayer [[0]] "foo").2 = [] :=
  ⟨rfl, rfl⟩

/-- C7 amended: for every pattern token outside the four canonical ones
(case-insensitively), the demosaic stage does not fail: it silently
falls back to the instrument-default GRBG-equivalent selector (printing
no warning) and produces a 3-channel image with one sample per input
sample in each channel. -/
theorem debayer_unknown_token_fallback (pattern : String)
    (frame : List (List Nat))
    (h : pyLower pattern ∉ (["rggb", "grbg", "gbrg", "bggr"] : List String)) :
    debayer frame pattern = (cvtColor frame CVBayerCode.bayerGB, []) ∧
    (debayer frame pattern).1.b.length = frame.flatten.length ∧
    (debayer frame pattern).1.g.length = frame.flatten.length ∧
    (debayer frame pattern).1.r.length = frame.flatten.length := by
  simp only [List.mem_cons, List.not_mem_nil, or_false, not_or] at h
  obtain ⟨h1, h2, h3, h4⟩ := h
  have hb1 : (pyLower pattern == "rggb") = false := beq_eq_false_iff_ne.mpr h1
  have hb2 : (pyLower pattern == "grbg") = false := beq_eq_false_iff_ne.mpr h2
  have hb3 : (pyLower pattern == "gbrg") = false := beq_eq_false_iff_ne.mpr h3
  have hb4 : (pyLower pattern == "bggr") = false := beq_eq_false_iff_ne.mpr h4
  have hcode : debayerCode pattern = CVBayerCode.bayerGB := by
    simp [debayerCode, patterns, List.lookup, hb1, hb2, hb3, hb4]
  have heq : debayer frame pattern = (cvtColor frame CVBayerCode.bayerGB, []) := by
    simp [debayer, hcode]
  refine ⟨heq, ?_, ?_, ?_⟩ <;> rw [heq] <;>
    exact List.length_map frame.flatten (fun v : ℕ => (v : ℚ))

/-- Witness for the amended C7 at the concrete token "foo" and a
concrete 2×2 frame. -/
theorem debayer_unknown_token_fallback_witness :
    debayer [[1, 2], [3, 4]] "foo" = (cvtColor [[1, 2], [3, 4]] CVBayerCode.bayerGB, []) ∧
    (debayer [[1, 2], [3, 4]] "foo").1.b.length
      = ([[1, 2], [3, 4]] : List (List Nat)).flatten.length ∧
    (debayer [[1, 2], [3, 4]] "foo").1.g.length
      = ([[1, 2], [3, 4]] : List (List Nat)).flatten.length ∧
    (debayer [[1, 2], [3, 4]] "foo").1.r.length
      = ([[1, 2], [3, 4]] : List (List Nat)).flatten.length :=
  debayer_unknown_token_fallback "foo" [[1, 2], [3, 4]] (by decide)

/-- C6 counterexample: a label whose offset field holds "-5" — present
but not a non-negative integer — is parsed successfully with offset -5
instead of failing with a malformed-value error. -/
theorem parse_pds4_label_accepts_negative :
    parse_pds4_label
      ⟨some "a.IMG", true, some "-5", none, some "2", none, some "3", none⟩
      = .ok ⟨some "a.IMG", -5, 2, 3, 8, "grbg", none⟩ :=
  rfl

theorem pyInt_error_classify (x : Option String) (e : PyErr)
    (h : pyInt x = .error e) :
    e = .typeError ∨ ∃ m, e = .valueError ("invalid literal for int: " ++ m) := by
  rcases x with _ | t
  · left
    simp only [pyInt, Except.error.injEq] at h
    exact h.symm
  · right
    simp only [pyInt] at h
    split at h
    · exact absurd h (by simp)
    · simp only [Except.error.injEq] at h
      exact ⟨t, h.symm⟩

/-- C6 amended: the label reader fails with a `ValueError` when the
image-array element is absent; a numeric field found under neither
lookup path surfaces as `int(None)`'s `TypeError`; a field that is
present but not parseable as an optionally-signed integer surfaces as
`int`'s `ValueError`; any integer, negative ones included, is accepted,
a missing file-name field causes no parse failure, and these are the
only failure modes. -/
theorem parse_pds4_label_failure_modes (lbl : Label) :
    (lbl.has_array = false →
      parse_pds4_label lbl = .error (.valueError "No Array_2D_Image element found")) ∧
    (lbl.has_array = true →
      ∀ e, pyInt (pyOr lbl.offset_ns lbl.offset_bare) = .error e →
        parse_pds4_label lbl = .error e) ∧
    (lbl.has_array = true →
      ∀ o e, pyInt (pyOr lbl.offset_ns lbl.offset_bare) = .ok o →
        pyInt (pyOr lbl.lines_ns lbl.lines_bare) = .error e →
        parse_pds4_label lbl = .error e) ∧
    (lbl.has_array = true →
      ∀ o l e, pyInt (pyOr lbl.offset_ns lbl.offset_bare) = .ok o →
        pyInt (pyOr lbl.lines_ns lbl.lines_bare) = .ok l →
        pyInt (pyOr lbl.samples_ns lbl.samples_bare) = .error e →
        parse_pds4_label lbl = .error e) ∧
    (lbl.has_array = true →
      ∀ o l s, pyInt (pyOr lbl.offset_ns lbl.offset_bare) = .ok o →
        pyInt (pyOr lbl.lines_ns lbl.lines_bare) = .ok l →
        pyInt (pyOr lbl.samples_ns lbl.samples_bare) = .ok s →
        parse_pds4_label lbl =
          .ok { file_name := lbl.file_name, off := o, lines := l, samples := s,
                bits := 8, bayer := "grbg", lut := none }) ∧
    (pyInt none = .error .typeError) ∧
    (∀ t e, pyInt (some t) = .error e →
      e = .valueError ("invalid literal for int: " ++ t)) ∧
    (∀ e, parse_pds4_label lbl = .error e →
      e = .valueError "No Array_2D_Image element found" ∨ e = .typeError ∨
      ∃ m, e = .valueError ("invalid literal for int: " ++ m)) := by
  refine ⟨?_, ?_, ?_, ?_, ?_, rfl, ?_, ?_⟩
  · intro ha
    simp [parse_pds4_label, ha]
  · intro ha e he
    simp [parse_pds4_label, ha, he]
  · intro ha o e ho he
    simp [parse_pds4_label, ha, ho, he]
  · intro ha o l e ho hl he
    simp [parse_pds4_label, ha, ho, hl, he]
  · intro ha o l s ho hl hs
    simp [parse_pds4_label, ha, ho, hl, hs]
  · intro t e he
    simp only [pyInt] at he
    split at he
    · exact absurd he (by simp)
    · simp only [Except.error.injEq] at he
      exact he.symm
  · intro e he
    unfold parse_pds4_label at he
    split at he
    · left
      exact (by injection he with h; exact h.symm)
    · rcases ho : pyInt (pyOr lbl.offset_ns lbl.offset_bare) with eo | o <;>
        rw [ho] at he
      · obtain rfl : eo = e := by injection he
        exact Or.inr (pyInt_error_classify _ _ ho)
      · rcases hl : pyInt (pyOr lbl.lines_ns lbl.lines_bare) with el | l <;>
          rw [hl] at he
        · obtain rfl : el = e := by injection he
          exact Or.inr (pyInt_error_classify _ _ hl)
        · rcases hs : pyInt (pyOr lbl.samples_ns lbl.samples_bare) with es | s <;>
            rw [hs] at he
          · obtain rfl : es = e := by injection he
            exact Or.inr (pyInt_error_classify _ _ hs)
          · exact absurd he (by simp)

/-- Witness for the amended C6 at a concrete label whose offset field
is present under the bare path but not parseable as an integer. -/
theorem parse_pds4_label_failure_modes_witness :
    parse_pds4_label ⟨none, true, none, some "abc", some "7", none, some "8", none⟩
      = .error (.valueError ("invalid literal for int: " ++ "abc")) :=
  (parse_pds4_label_failure_modes
    ⟨none, true, none, some "abc", some "7", none, some "8", none⟩).2.1 rfl _ rfl

theorem batchStep_sum (fs : FS) (od bo : Option String) (acc : Nat × Nat)
    (item : String × Label) :
    (batchStep fs od bo acc item).1 + (batchStep fs od bo acc item).2
      = acc.1 + acc.2 + 1 := by
  unfold batchStep
  split <;> dsimp only <;> omega

theorem processBatch_foldl_sum (fs : FS) (od bo : Option String)
    (labels : List (String × Label)) :
    ∀ acc : Nat × Nat,
      (labels.foldl (batchStep fs od bo) acc).1
        + (labels.foldl (batchStep fs od bo) acc).2
        = acc.1 + acc.2 + labels.length := by
  induction labels with
  | nil => intro acc; simp
  | cons hd tl ih =>
    intro acc
    rw [List.foldl_cons, ih (batchStep fs od bo acc hd), batchStep_sum,
      List.length_cons]
    omega

/-- C8: every call of the core entry point ends in exactly one of three
ways — a success whose return value carries the output destination path
(and exactly that file is written), a soft `None` failure writing
nothing, or a typed error value writing nothing — and the batch loop
tallies every label as a success or a failure, so a failure on one
image never aborts the processing of sibling images. -/
theorem process_pds_image_typed_outcomes :
    (∀ (fs : FS) (xml_dir : String) (lbl : Label) (od bo : Option String),
      (∃ p img, (process_pds_image fs xml_dir lbl od bo).ret = .ok (some p) ∧
        (process_pds_image fs xml_dir lbl od bo).written = [(p, img)]) ∨
      ((process_pds_image fs xml_dir lbl od bo).ret = .ok none ∧
        (process_pds_image fs xml_dir lbl od bo).written = []) ∨
      (∃ e, (process_pds_image fs xml_dir lbl od bo).ret = .error e ∧
        (process_pds_image fs xml_dir lbl od bo).written = [])) ∧
    (∀ (fs : FS) (labels : List (String × Label)) (od bo : Option String),
      (processBatch fs labels od bo).1 + (processBatch fs labels od bo).2
        = labels.length) := by
  constructor
  · intro fs xml_dir lbl od bo
    unfold process_pds_image
    dsimp only
    repeat' split
    all_goals
      first
      | exact .inr (.inr ⟨_, rfl, rfl⟩)
      | exact .inr (.inl ⟨rfl, rfl⟩)
      | exact .inl ⟨_, _, rfl, rfl⟩
  · intro fs labels od bo
    have h := processBatch_foldl_sum fs od bo labels (0, 0)
    simpa [processBatch] using h

/-- C10: when the label parses but the referenced IMG file is absent
from the label's directory, the entry point returns `None` after
printing a warning — it raises nothing — and no output file is
written. -/
theorem process_pds_image_missing_img_soft (fs : FS) (xml_dir : String)
    (lbl : Label) (od bo : Option String) (info : ImageInfo) (fn : String)
    (hparse : parse_pds4_label lbl = .ok info)
    (hfn : info.file_name = some fn)
    (hmiss : fs.isFile (osPathJoin xml_dir fn) = false) :
    (process_pds_image fs xml_dir lbl od bo).ret = .ok none ∧
    (process_pds_image fs xml_dir lbl od bo).written = [] ∧
    ("IMG file not found: " ++ osPathJoin xml_dir fn)
      ∈ (process_pds_image fs xml_dir lbl od bo).printed := by
  unfold process_pds_image
  rw [hparse]
  simp only [hfn, hmiss]
  simp

/-- Witness for C10: a concrete parsable label over an empty
filesystem. -/
theorem process_pds_image_missing_img_soft_witness :
    (process_pds_image ⟨[]⟩ "d"
        ⟨some "a.IMG", true, some "0", none, some "2", none, some "3", none⟩
        none none).ret = .ok none ∧
    (process_pds_image ⟨[]⟩ "d"
        ⟨some "a.IMG", true, some "0", none, some "2", none, some "3", none⟩
        none none).written = [] ∧
    ("IMG file not found: " ++ osPathJoin "d" "a.IMG")
      ∈ (process_pds_image ⟨[]⟩ "d"
          ⟨some "a.IMG", true, some "0", none, some "2", none, some "3", none⟩
          none none).printed :=
  process_pds_image_missing_img_soft ⟨[]⟩ "d"
    ⟨some "a.IMG", true, some "0", none, some "2", none, some "3", none⟩
    none none ⟨some "a.IMG", 0, 2, 3, 8, "grbg", none⟩ "a.IMG" rfl rfl rfl

theorem npMean_map_mul (l : List ℚ) (c : ℚ) :
    npMean (l.map (fun x => x * c)) = npMean l * c := by
  unfold npMean
  rw [List.length_map]
  have hsum : (l.map (fun x => x * c)).sum = l.sum * c := by
    induction l with
    | nil => simp
    | cons h t ih => simp [ih]; ring
  rw [hsum, mul_div_right_comm]

theorem toU8_nonneg (x : ℚ) : 0 ≤ toU8 x := by
  unfold toU8
  exact_mod_cast Int.floor_nonneg.mpr (le_max_left 0 (min 255 x))

theorem toU8_le_255 (x : ℚ) : toU8 x ≤ 255 := by
  unfold toU8
  calc (⌊max 0 (min 255 x)⌋ : ℚ) ≤ max 0 (min 255 x) := Int.floor_le _
    _ ≤ 255 := max_le (by norm_num) (min_le_left _ _)

theorem toU8_natCast (n : ℕ) (h : n ≤ 255) : toU8 (n : ℚ) = n := by
  unfold toU8
  rw [min_eq_right (by exact_mod_cast h), max_eq_right (by positivity)]
  exact_mod_cast congrArg (fun z : ℤ => (z : ℚ)) (Int.floor_natCast n)

theorem map_toU8_id (l : List ℚ) (h : ∀ x ∈ l, ∃ n : ℕ, x = (n : ℚ) ∧ n ≤ 255) :
    l.map toU8 = l := by
  conv_rhs => rw [← List.map_id l]
  refine List.map_congr_left (fun x hx => ?_)
  obtain ⟨n, rfl, hn⟩ := h x hx
  exact toU8_natCast n hn

theorem npPercentile_const (l : List ℚ) (c q : ℚ) (hne : l ≠ [])
    (hq0 : 0 ≤ q) (hq1 : q ≤ 100) (hall : ∀ x ∈ l, x = c) :
    npPercentile l q = c := by
  unfold npPercentile
  dsimp only
  have hperm := List.perm_insertionSort (fun x1 x2 : ℚ => x1 ≤ x2) l
  have hmem : ∀ x ∈ l.insertionSort (fun x1 x2 => x1 ≤ x2), x = c :=
    fun x hx => hall x (hperm.mem_iff.mp hx)
  have hslen : (l.insertionSort (fun x1 x2 => x1 ≤ x2)).length = l.length :=
    hperm.length_eq
  have hlen1 : 1 ≤ l.length := List.length_pos.mpr hne
  have hcast1 : (1 : ℚ) ≤ (l.length : ℚ) := by exact_mod_cast hlen1
  have hposle : q / 100 * ((l.length : ℚ) - 1) ≤ (l.length : ℚ) - 1 := by
    have h1 : q / 100 ≤ 1 := by linarith
    have h2 : (0 : ℚ) ≤ (l.length : ℚ) - 1 := by linarith
    nlinarith
  have hfl : ⌊q / 100 * ((l.length : ℚ) - 1)⌋ ≤ (l.length : ℤ) - 1 := by
    have : ((l.length : ℚ) - 1) = (((l.length : ℤ) - 1 : ℤ) : ℚ) := by push_cast; ring
    calc ⌊q / 100 * ((l.length : ℚ) - 1)⌋
        ≤ ⌊((l.length : ℚ) - 1)⌋ := Int.floor_le_floor hposle
      _ = (l.length : ℤ) - 1 := by rw [this, Int.floor_intCast]
  have hi : (⌊q / 100 * ((l.length : ℚ) - 1)⌋).toNat < l.length := by omega
  have hi' : (⌊q / 100 * ((l.length : ℚ) - 1)⌋).toNat
      < (l.insertionSort (fun x1 x2 => x1 ≤ x2)).length := by
    rw [hslen]; exact hi
  have hlo : (l.insertionSort (fun x1 x2 => x1 ≤ x2)).getD
      (⌊q / 100 * ((l.length : ℚ) - 1)⌋).toNat 0 = c := by
    rw [List.getD_eq_getElem _ _ hi']
    exact hmem _ (List.getElem_mem hi')
  rw [hlo]
  by_cases hi2 : (⌊q / 100 * ((l.length : ℚ) - 1)⌋).toNat + 1
      < (l.insertionSort (fun x1 x2 => x1 ≤ x2)).length
  · rw [List.getD_eq_getElem _ _ hi2, hmem _ (List.getElem_mem hi2)]
    ring
  · rw [List.getD_eq_default _ _ (by omega)]
    ring

/-- C3 counterexample: the image with channels b=[2,2], g=[2,2],
r=[1,2] has all original channel means strictly positive, yet after the
full white-balance stage (clamp and 8-bit truncation included) the red
mean is 3/2 while the green mean is 2: the means differ by 1/2, far
beyond the claimed 1e-3 tolerance on a [0,255] scale. -/
theorem white_balance_mean_gap :
    (0 < npMean (Image.mk [2, 2] [2, 2] [1, 2]).r ∧
     0 < npMean (Image.mk [2, 2] [2, 2] [1, 2]).g ∧
     0 < npMean (Image.mk [2, 2] [2, 2] [1, 2]).b) ∧
    npMean (white_balance (Image.mk [2, 2] [2, 2] [1, 2])).r = 3 / 2 ∧
    npMean (white_balance (Image.mk [2, 2] [2, 2] [1, 2])).g = 2 ∧
    npMean (white_balance (Image.mk [2, 2] [2, 2] [1, 2])).g
      - npMean (white_balance (Image.mk [2, 2] [2, 2] [1, 2])).r > 1 / 1000 := by
  norm_num [white_balance, white_balance_scaled, npMean, toU8]

/-- C3 amended: with all three original channel means strictly
positive, the gray-world rescaling equalises the channel means exactly
on the working float copy, before the final clamp and 8-bit truncation
(red and blue means both become the green mean; green samples are left
unchanged); the committed stage leaves 8-bit green samples unchanged
and every committed output sample lies in [0, 255]. (After the clamp
and truncation the committed means may differ by more than 1e-3.) -/
theorem white_balance_equalizes_prequant_means (img : Image)
    (hr : 0 < npMean img.r) (hg : 0 < npMean img.g) (hb : 0 < npMean img.b) :
    npMean (white_balance_scaled img).r = npMean img.g ∧
    npMean (white_balance_scaled img).b = npMean img.g ∧
    (white_balance_scaled img).g = img.g ∧
    ((∀ x ∈ img.g, ∃ n : ℕ, x = (n : ℚ) ∧ n ≤ 255) →
      (white_balance img).g = img.g) ∧
    (∀ x ∈ (white_balance img).b ++ (white_balance img).g ++ (white_balance img).r,
      0 ≤ x ∧ x ≤ 255) := by
  have hscale : ∀ l : List ℚ, npMean l ≠ 0 →
      npMean (l.map (fun x => x * (npMean img.g / npMean l))) = npMean img.g := by
    intro l hl
    rw [npMean_map_mul, mul_comm, div_mul_cancel₀ _ hl]
  refine ⟨?_, ?_, rfl, ?_, ?_⟩
  · show npMean (if 0 < npMean img.r then
        img.r.map (fun x => x * (npMean img.g / npMean img.r)) else img.r)
      = npMean img.g
    rw [if_pos hr]
    exact hscale img.r hr.ne'
  · show npMean (if 0 < npMean img.b then
        img.b.map (fun x => x * (npMean img.g / npMean img.b)) else img.b)
      = npMean img.g
    rw [if_pos hb]
    exact hscale img.b hb.ne'
  · intro h8
    show ((white_balance_scaled img).g).map toU8 = img.g
    exact map_toU8_id img.g h8
  · intro x hx
    rcases List.mem_append.mp hx with hx' | hx'
    · rcases List.mem_append.mp hx' with hc | hc <;>
      · obtain ⟨y, _, rfl⟩ := List.mem_map.mp hc
        exact ⟨toU8_nonneg y, toU8_le_255 y⟩
    · obtain ⟨y, _, rfl⟩ := List.mem_map.mp hx'
      exact ⟨toU8_nonneg y, toU8_le_255 y⟩

/-- Witness for the amended C3 at the concrete single-pixel image
b=[1], g=[2], r=[3]. -/
theorem white_balance_equalizes_prequant_means_witness :
    npMean (white_balance_scaled (Image.mk [1] [2] [3])).r
      = npMean (Image.mk [1] [2] [3]).g ∧
    npMean (white_balance_scaled (Image.mk [1] [2] [3])).b
      = npMean (Image.mk [1] [2] [3]).g ∧
    (white_balance_scaled (Image.mk [1] [2] [3])).g = (Image.mk [1] [2] [3]).g ∧
    ((∀ x ∈ (Image.mk [1] [2] [3]).g, ∃ n : ℕ, x = (n : ℚ) ∧ n ≤ 255) →
      (white_balance (Image.mk [1] [2] [3])).g = (Image.mk [1] [2] [3]).g) ∧
    (∀ x ∈ (white_balance (Image.mk [1] [2] [3])).b
        ++ (white_balance (Image.mk [1] [2] [3])).g
        ++ (white_balance (Image.mk [1] [2] [3])).r,
      0 ≤ x ∧ x ≤ 255) :=
  white_balance_equalizes_prequant_means (Image.mk [1] [2] [3])
    (by norm_num [npMean]) (by norm_num [npMean]) (by norm_num [npMean])

/-- C4: contrast stretch computes the 0.5th and 99.5th percentiles of
all samples pooled across the whole image; when they coincide the image
is returned unchanged — in particular any all-identical image is
returned unchanged — and otherwise every sample is remapped by the
linear map (clamped outside the percentile range and quantised to
8-bit) that sends the low percentile to 0 and the high percentile
to 255. -/
theorem stretch_contrast_spec (img : Image) :
    (npPercentile img.pool (199 / 2) = npPercentile img.pool (1 / 2) →
      stretch_contrast img = img) ∧
    (∀ c : ℚ, img.pool ≠ [] → (∀ x ∈ img.pool, x = c) →
      npPercentile img.pool (1 / 2) = c ∧
      npPercentile img.pool (199 / 2) = c ∧
      stretch_contrast img = img) ∧
    (npPercentile img.pool (199 / 2) ≠ npPercentile img.pool (1 / 2) →
      (stretch_contrast img).b = img.b.map (stretchMap img) ∧
      (stretch_contrast img).g = img.g.map (stretchMap img) ∧
      (stretch_contrast img).r = img.r.map (stretchMap img) ∧
      stretchMap img (npPercentile img.pool (1 / 2)) = 0 ∧
      stretchMap img (npPercentile img.pool (199 / 2)) = 255) := by
  have hdegen : npPercentile img.pool (199 / 2) = npPercentile img.pool (1 / 2) →
      stretch_contrast img = img := by
    intro h
    unfold stretch_contrast
    dsimp only
    rw [if_pos (sub_eq_zero_of_eq h)]
  refine ⟨hdegen, ?_, ?_⟩
  · intro c hne hall
    have h1 : npPercentile img.pool (1 / 2) = c :=
      npPercentile_const img.pool c (1 / 2) hne (by norm_num) (by norm_num) hall
    have h2 : npPercentile img.pool (199 / 2) = c :=
      npPercentile_const img.pool c (199 / 2) hne (by norm_num) (by norm_num) hall
    exact ⟨h1, h2, hdegen (h2.trans h1.symm)⟩
  · intro hne
    have hd : npPercentile img.pool (199 / 2) - npPercentile img.pool (1 / 2) ≠ 0 :=
      sub_ne_zero.mpr hne
    have hbranch : stretch_contrast img =
        { b := img.b.map (stretchMap img), g := img.g.map (stretchMap img),
          r := img.r.map (stretchMap img) } := by
      unfold stretch_contrast
      dsimp only
      rw [if_neg hd]
      rfl
    refine ⟨by rw [hbranch], by rw [hbranch], by rw [hbranch], ?_, ?_⟩
    · unfold stretchMap
      rw [sub_self, zero_mul, zero_div]
      norm_num [toU8]
    · unfold stretchMap
      rw [mul_comm, mul_div_assoc, div_self hd, mul_one]
      norm_num [toU8]

/-- Witness for C4 at the concrete all-identical image with every
sample equal to 7. -/
theorem stretch_contrast_spec_witness :
    npPercentile (Image.pool (Image.mk [7, 7] [7, 7] [7, 7])) (1 / 2) = 7 ∧
    npPercentile (Image.pool (Image.mk [7, 7] [7, 7] [7, 7])) (199 / 2) = 7 ∧
    stretch_contrast (Image.mk [7, 7] [7, 7] [7, 7]) = Image.mk [7, 7] [7, 7] [7, 7] :=
  (stretch_contrast_spec (Image.mk [7, 7] [7, 7] [7, 7])).2.1 7
    (by simp [Image.pool])
    (by intro x hx; simpa [Image.pool] using hx)

/-- C9: on an 8-bit image whose pooled 0.5th/99.5th percentiles are
already 0 and 255, the contrast stretch returns every sample unchanged,
and re-applying the stage to its own output is a no-op. -/
theorem stretch_contrast_noop_at_extremes (img : Image)
    (h8 : ∀ x ∈ img.pool, ∃ n : ℕ, x = (n : ℚ) ∧ n ≤ 255)
    (hlo : npPercentile img.pool (1 / 2) = 0)
    (hhi : npPercentile img.pool (199 / 2) = 255) :
    stretch_contrast img = img ∧
    stretch_contrast (stretch_contrast img) = stretch_contrast img := by
  have hmap : ∀ l : List ℚ, (∀ x ∈ l, x ∈ img.pool) →
      l.map (fun x => toU8 ((x - 0) * 255 / (255 - 0))) = l := by
    intro l hl
    conv_rhs => rw [← List.map_id l]
    refine List.map_congr_left (fun x hx => ?_)
    obtain ⟨n, rfl, hn⟩ := h8 x (hl x hx)
    rw [sub_zero, sub_zero, mul_div_assoc]
    norm_num
    exact toU8_natCast n hn
  have hmain : stretch_contrast img = img := by
    unfold stretch_contrast
    dsimp only
    rw [hlo, hhi, if_neg (by norm_num)]
    cases img with
    | mk b g r =>
      simp only [Image.mk.injEq]
      refine ⟨hmap b ?_, hmap g ?_, hmap r ?_⟩
      · exact fun x hx => List.mem_append_left _ (List.mem_append_left _ hx)
      · exact fun x hx => List.mem_append_left _ (List.mem_append_right _ hx)
      · exact fun x hx => List.mem_append_right _ hx
  refine ⟨hmain, ?_⟩
  rw [hmain]
  exact hmain

/-- Witness for C9 at the concrete image whose pooled samples are
[0, 255, 0, 255, 0, 255]. -/
theorem stretch_contrast_noop_at_extremes_witness :
    stretch_contrast (Image.mk [0, 255] [0, 255] [0, 255])
      = Image.mk [0, 255] [0, 255] [0, 255] ∧
    stretch_contrast (stretch_contrast (Image.mk [0, 255] [0, 255] [0, 255]))
      = stretch_contrast (Image.mk [0, 255] [0, 255] [0, 255]) := by
  refine stretch_contrast_noop_at_extremes (Image.mk [0, 255] [0, 255] [0, 255])
    ?_ ?_ ?_
  · intro x hx
    simp only [Image.pool, List.cons_append, List.nil_append, List.mem_cons,
      List.not_mem_nil, or_false] at hx
    rcases hx with rfl | rfl | rfl | rfl | rfl | rfl
    · exact ⟨0, by norm_num⟩
    · exact ⟨255, by norm_num⟩
    · exact ⟨0, by norm_num⟩
    · exact ⟨255, by norm_num⟩
    · exact ⟨0, by norm_num⟩
    · exact ⟨255, by norm_num⟩
  · norm_num [npPercentile, Image.pool, List.insertionSort, List.orderedInsert,
      List.getD]
  · norm_num [npPercentile, Image.pool, List.insertionSort, List.orderedInsert,
      List.getD, show (4 : ℤ).toNat = 4 from rfl]
